import Mathlib

/-!
Verification of the medication-reminder application core
(`src/services/AlarmService.ts`, `src/services/HistoryService.ts`,
`src/services/MedicationManager.ts`, `src/screens/HistoryScreen.js`),
as a shallow embedding in Lean.

Modelling conventions:
* Timestamps (`takenAt`, "now") are minutes since the local epoch
  (sub-minute resolution is below the granularity the code observes:
  `moment.diff(.., 'minutes')` and day formatting truncate to whole
  minutes / days).
* A calendar day in local time is the day number `t / 1440`; day 0
  (1970-01-01) was a Thursday, so the JavaScript `Date.getDay()`
  weekday of day `n` is `(n + 4) % 7` (0 = Sunday .. 6 = Saturday).
* JavaScript `Number(s)` applied to the `"HH"` / `"mm"` components of a
  time string is modelled as decimal natural-number parsing
  (`String.toNat?`); strings that are not plain decimal numerals count
  as `NaN`, i.e. fail the validation in `scheduleAlarmNotification`.
* `expo-notifications` trigger registration is modelled as an
  association list of `Trigger`s keyed by the string identifier;
  scheduling with an identifier that is already registered replaces
  the old registration, `cancelAllScheduledNotificationsAsync` empties
  the list.
* `HistoryService.ts` contains two revisions of
  `calculateAdherenceStats`: the alarm-count based one (modelled as
  `calculateAdherenceStatsV1`) and the 30-day-window one (modelled as
  `calculateAdherenceStatsV2`).  Both are embedded.
-/

/-- `MedicationAlarm` from `src/types/index.ts`. -/
structure MedicationAlarm where
  id : String
  medicationId : String
  medicationName : String
  /-- format "HH:mm" -/
  time : String
  lightColor : String
  lightIds : List String
  isEnabled : Bool
  /-- 1 = Monday .. 7 = Sunday -/
  daysOfWeek : List Nat
  createdAt : String
deriving DecidableEq

/-- `Medication` from `src/types/index.ts`.  `pillCount` is an `Int`
so that the "never negative" guarantee is a statement, not a typing
artefact. -/
structure Medication where
  id : String
  name : String
  displayName : String
  genericName : String
  isActive : Bool
  pillCount : Int
  alarms : List MedicationAlarm
  createdAt : String
  updatedAt : String
deriving DecidableEq

/-- `MedicationHistory` from `src/types/index.ts`; `takenAt` is in
minutes since the local epoch. -/
structure MedicationHistory where
  id : String
  medicationId : String
  medicationName : String
  takenAt : Nat
  alarmId : Option String
  wasOnTime : Bool
deriving DecidableEq

/-- The `data` payload attached to a scheduled notification in
`AlarmService.scheduleAlarmNotification`. -/
structure TriggerPayload where
  medicationId : String
  alarmId : String
  medicationName : String
  alarmTime : String
deriving DecidableEq

/-- One registered recurring trigger in the notification collaborator:
the `identifier`, the calendar trigger parameters (expo weekday
numbering, 1 = Sunday .. 7 = Saturday) and the payload. -/
structure Trigger where
  key : String
  weekday : Nat
  hour : Nat
  minute : Nat
  payload : TriggerPayload
deriving DecidableEq

/-- JavaScript `String.prototype.split(':')` on the character list of
a string: `"a:b:c"` gives `["a","b","c"]`, the empty string gives
`[""]`. -/
def splitOnColon : List Char → List (List Char)
  | [] => [[]]
  | c :: rest =>
      let r := splitOnColon rest
      if c = ':' then [] :: r
      else
        match r with
        | [] => [[c]]
        | x :: xs => (c :: x) :: xs

/-- The numeric value of a decimal digit character. -/
def digitVal (c : Char) : Option Nat := if c.isDigit then some (c.toNat - 48) else none

/-- JavaScript `Number(s)` on a split component, for the forms the
time field can take: the empty string is 0, a string of decimal digits
is its value, anything else is NaN (`none`).  (Fractional, signed or
whitespace-padded numerals are outside the model; the app's time
picker produces only zero-padded integers.) -/
def jsNumber (l : List Char) : Option Nat :=
  if l = [] then some 0
  else
    l.foldl (fun acc c =>
      match acc, digitVal c with
      | some n, some d => some (n * 10 + d)
      | _, _ => none) (some 0)

/-- `alarm.time.split(':').map(Number)` followed by the validation
`isNaN(hours) || isNaN(minutes) || hours < 0 || hours > 23 ||
minutes < 0 || minutes > 59` in `scheduleAlarmNotification`
(AlarmService.ts lines 174-180).  Components after the second are
ignored, exactly as the destructuring `const [hours, minutes]` does. -/
def parseAlarmTime (time : String) : Option (Nat × Nat) :=
  match (splitOnColon time.data).map jsNumber with
  | some h :: some m :: _ => if h ≤ 23 ∧ m ≤ 59 then some (h, m) else none
  | _ => none

/-- Weekday translation in `scheduleAlarmNotification` (line 195):
domain numbering 1 = Monday .. 7 = Sunday, expo numbering
1 = Sunday .. 7 = Saturday. -/
def expoWeekday (d : Nat) : Nat := if d = 7 then 1 else d + 1

/-- The notification identifier `alarm_${alarm.id}_${dayOfWeek}`
(AlarmService.ts line 233). -/
def mkTriggerKey (alarmId : String) (d : Nat) : String :=
  "alarm_" ++ alarmId ++ "_" ++ toString d

/-- The trigger registered for one (alarm, weekday) pair. -/
def mkTrigger (m : Medication) (a : MedicationAlarm) (h mi d : Nat) : Trigger :=
  { key := mkTriggerKey a.id d
    weekday := expoWeekday d
    hour := h
    minute := mi
    payload :=
      { medicationId := m.id
        alarmId := a.id
        medicationName := m.name
        alarmTime := a.time } }

/-- `Notifications.scheduleNotificationAsync` with an explicit
identifier: a registration under an already-used identifier replaces
the previous one. -/
def registerTrigger (ts : List Trigger) (t : Trigger) : List Trigger :=
  ts.filter (fun u => u.key != t.key) ++ [t]

/-- `Notifications.cancelAllScheduledNotificationsAsync`. -/
def cancelAllTriggers (_ : List Trigger) : List Trigger := []

/-- The list of triggers `scheduleAlarmNotification medication alarm`
registers, in order: nothing if the time string fails validation,
otherwise one trigger per in-range (1..7) entry of `daysOfWeek`
(out-of-range values hit the `continue` on line 187-189). -/
def alarmRegistrations (m : Medication) (a : MedicationAlarm) : List Trigger :=
  match parseAlarmTime a.time with
  | none => []
  | some (h, mi) =>
      (a.daysOfWeek.filter (fun d => decide (1 ≤ d ∧ d ≤ 7))).map
        (fun d => mkTrigger m a h mi d)

/-- The flat sequence of registrations issued by
`rescheduleAllMedications` (AlarmService.ts lines 137-159): for every
medication with a truthy id, for every enabled alarm of that
medication, the registrations of `scheduleAlarmNotification`. -/
def rescheduleRegs (meds : List Medication) (alarms : List MedicationAlarm) :
    List Trigger :=
  meds.flatMap (fun m =>
    if m.id = "" then []
    else
      (alarms.filter (fun a => a.medicationId == m.id && a.isEnabled)).flatMap
        (alarmRegistrations m))

/-- `rescheduleAllMedications`: cancel every scheduled notification,
then register the full current configuration. -/
def rescheduleAllMedications (meds : List Medication)
    (alarms : List MedicationAlarm) (st : List Trigger) : List Trigger :=
  (rescheduleRegs meds alarms).foldl registerTrigger (cancelAllTriggers st)

/-- `AdherenceStats` from `src/types/index.ts` (numeric fields;
`lastTaken` is the timestamp of the last entry, when any). -/
structure AdherenceStats where
  medicationId : String
  medicationName : String
  totalAlarms : Nat
  totalTaken : Nat
  adherenceRate : Nat
  currentStreak : Nat
  longestStreak : Nat
  lastTaken : Option Nat
  missedDays : Nat
deriving DecidableEq

/-- The all-zero statistics record both revisions return for an empty
history / on error. -/
def zeroStats (med : Medication) : AdherenceStats :=
  { medicationId := med.id
    medicationName := med.name
    totalAlarms := 0
    totalTaken := 0
    adherenceRate := 0
    currentStreak := 0
    longestStreak := 0
    lastTaken := none
    missedDays := 0 }

/-- `getMedicationHistory`: the history entries of one medication. -/
def historyFor (hist : List MedicationHistory) (mid : String) :
    List MedicationHistory :=
  hist.filter (fun e => e.medicationId == mid)

/-- The local calendar day (`moment(..).format('YYYY-MM-DD')`) of a
minute timestamp. -/
def takenDay (t : Nat) : Nat := t / 1440

/-- JavaScript `Date.getDay()` of a day number: day 0 (1970-01-01) was
a Thursday, so `getDay = 4` there. -/
def jsWeekday (day : Nat) : Nat := (day + 4) % 7

/-- `Math.round((t / e) * 100)` for naturals, `e > 0`: round half up. -/
def jsRound100 (t e : Nat) : Nat := (200 * t + e) / (2 * e)

/-- The distinct taken days of a list of entries (the `takenDays`
`Set` both revisions build). -/
def takenDaysN (entries : List MedicationHistory) : List Nat :=
  (entries.map (fun e => takenDay e.takenAt)).dedup

/-- The distinct taken days as integers (for the backward walk of the
current-streak loop, which may step below day 0). -/
def takenDaysI (entries : List MedicationHistory) : List Int :=
  (takenDaysN entries).map Int.ofNat

/-- The `while` loop of the current-streak computation: walk backward
from `d` while the day is a taken day.  The loop in the source is
unbounded; here it carries fuel, and `streakBackAux_lt_fuel` below
shows that the fuel `currentStreakOf` supplies is never exhausted, so
the truncation is invisible. -/
def streakBackAux (S : List Int) : Int → Nat → Nat
  | _, 0 => 0
  | d, fuel + 1 => if d ∈ S then 1 + streakBackAux S (d - 1) fuel else 0

/-- `currentStreak` (HistoryService.ts lines 449-462 and 159-184):
consecutive days ending today with at least one taken entry. -/
def currentStreakOf (S : List Int) (today : Int) : Nat :=
  streakBackAux S today (S.length + 1)

/-- The longest-streak loop of the first revision (lines 196-210),
running over the sorted distinct taken days: `prev` is the previous
date, `temp` the running streak, `longest` the best finished streak.
`moment(curr).diff(moment(prev), 'days')` on the parsed day-granular
dates is the exact signed day difference. -/
def streakLoop : Nat → Nat → Nat → List Nat → Nat
  | _, temp, longest, [] => max longest temp
  | prev, temp, longest, d :: rest =>
      if (d : Int) - (prev : Int) = 1 then streakLoop d (temp + 1) longest rest
      else streakLoop d 1 (max longest temp) rest

/-- `Array.from(takenDays).sort()`: the distinct taken days in
chronological order (lexicographic order of "YYYY-MM-DD" strings is
chronological order). -/
def distinctSortedDays (entries : List MedicationHistory) : List Nat :=
  List.insertionSort (fun a b => a ≤ b) (takenDaysN entries)

/-- `longestStreak` of the first revision (HistoryService.ts lines
186-211): scan the sorted distinct taken days; the source initializes
`tempStreak = 1` and starts the loop at index 1. -/
def longestStreakV1 (entries : List MedicationHistory) : Nat :=
  match distinctSortedDays entries with
  | [] => 0
  | d :: rest => streakLoop d 1 0 rest

/-- The longest-streak loop of the windowed revision (lines 471-482),
running over the raw sorted entry timestamps; `moment(a).diff(b,
'days')` on full timestamps is the 24-hour-period count, i.e.
truncated division of the minute difference by 1440. -/
def streakLoopV2 : Nat → Nat → Nat → List Nat → Nat
  | _, temp, longest, [] => max longest temp
  | prev, temp, longest, t :: rest =>
      if (t - prev) / 1440 = 1 then streakLoopV2 t (temp + 1) longest rest
      else streakLoopV2 t 1 (max longest temp) rest

/-- `longestStreak` of the windowed revision (HistoryService.ts lines
464-482): iterate over history entries sorted by `takenAt` (`i = 0`
starts the streak at 1). -/
def longestStreakV2 (entries : List MedicationHistory) : Nat :=
  match List.insertionSort (fun a b => a ≤ b) (entries.map (fun e => e.takenAt)) with
  | [] => 0
  | t :: rest => streakLoopV2 t 1 0 rest

/-- The `alarmsWithPillsTaken` keys of the first revision (lines
125-142): the alarm id when present and truthy, otherwise the
date + 30-minute-window string. -/
inductive V1Key where
  | byAlarm (id : String)
  | byWindow (day : Nat) (hour : Nat) (minute : Nat)
deriving DecidableEq

/-- The date + rounded-half-hour fallback key (lines 132-140). -/
def windowKey (e : MedicationHistory) : V1Key :=
  V1Key.byWindow (takenDay e.takenAt) ((e.takenAt % 1440) / 60)
    (((e.takenAt % 1440) % 60) / 30 * 30)

/-- The key one entry contributes (line 128: `if (entry.alarmId)` —
an empty string is falsy in JavaScript). -/
def v1KeyOf (e : MedicationHistory) : V1Key :=
  match e.alarmId with
  | some id => if id = "" then windowKey e else V1Key.byAlarm id
  | none => windowKey e

/-- The first revision of `calculateAdherenceStats` (HistoryService.ts
lines 110-241): adherence = unique alarms taken / enabled alarms.
`today` is the current local day number. -/
def calculateAdherenceStatsV1 (med : Medication) (alarms : List MedicationAlarm)
    (hist : List MedicationHistory) (today : Nat) : AdherenceStats :=
  let entries := historyFor hist med.id
  let totalAlarms := (alarms.filter (fun a => a.isEnabled)).length
  let totalTaken := ((entries.map v1KeyOf).dedup).length
  { medicationId := med.id
    medicationName := med.name
    totalAlarms := totalAlarms
    totalTaken := totalTaken
    adherenceRate := if 0 < totalAlarms then jsRound100 totalTaken totalAlarms else 0
    currentStreak :=
      if entries = [] then 0 else currentStreakOf (takenDaysI entries) today
    longestStreak := if entries = [] then 0 else longestStreakV1 entries
    lastTaken := (entries.getLast?).map (fun e => e.takenAt)
    -- `Math.max(0, totalAlarms - totalTaken)`: truncated subtraction
    missedDays := totalAlarms - totalTaken }

/-- The expected medication days of the windowed revision (lines
413-432): for every enabled alarm, every day of the 30-day window
`today - 30 .. today - 1` (the loop runs `current` from
`moment().subtract(30, 'days')` while strictly before `moment()`)
whose JavaScript weekday is in the alarm's day set translated by
`d === 7 ? 0 : d`.  Only meaningful for `30 ≤ today`. -/
def expectedDaysV2 (alarms : List MedicationAlarm) (today : Nat) : List Nat :=
  ((alarms.filter (fun a => a.isEnabled)).flatMap (fun a =>
    (List.range 30).filterMap (fun k =>
      let day := today - 30 + k
      if jsWeekday day ∈ a.daysOfWeek.map (fun d => if d = 7 then 0 else d)
      then some day else none))).dedup

/-- The windowed revision of `calculateAdherenceStats`
(HistoryService.ts lines 388-512): adherence = distinct taken days /
expected days in the trailing 30-day window.  Note the taken days are
not intersected with the expected days. -/
def calculateAdherenceStatsV2 (med : Medication) (alarms : List MedicationAlarm)
    (hist : List MedicationHistory) (today : Nat) : AdherenceStats :=
  let entries := historyFor hist med.id
  if entries = [] then zeroStats med
  else
    let totalExpected := (expectedDaysV2 alarms today).length
    let totalTaken := (takenDaysN entries).length
    { medicationId := med.id
      medicationName := med.name
      totalAlarms := totalExpected
      totalTaken := totalTaken
      adherenceRate :=
        if 0 < totalExpected then jsRound100 totalTaken totalExpected else 0
      currentStreak := currentStreakOf (takenDaysI entries) today
      longestStreak := longestStreakV2 entries
      lastTaken := (entries.getLast?).map (fun e => e.takenAt)
      -- `Math.max(0, missedDays)`: truncated subtraction
      missedDays := totalExpected - totalTaken }

/-- The nominal alarm instant `moment(alarmTime, 'HH:mm')`: today's
date at hour `h`, minute `mi`, in minutes since the epoch. -/
def nominalAlarmMin (now h mi : Nat) : Nat := now / 1440 * 1440 + h * 60 + mi

/-- The `wasOnTime` computation of `recordMedicationTaken`
(HistoryService.ts lines 58-65): true when no alarm time is supplied;
otherwise the absolute minute difference to today's alarm instant must
be at most 30 (an unparseable time gives an invalid moment, whose
`diff` is NaN, and `NaN <= 30` is false). -/
def wasOnTimeFlag (alarmTime : Option String) (now : Nat) : Bool :=
  match alarmTime with
  | none => true
  | some s =>
      match parseAlarmTime s with
      | none => false
      | some (h, mi) => ((now : Int) - (nominalAlarmMin now h mi : Int)).natAbs ≤ 30

/-- `recordMedicationTaken` (HistoryService.ts lines 48-83): append a
new entry with the on-time flag. -/
def recordMedicationTaken (hist : List MedicationHistory)
    (mid mname : String) (alarmId : Option String)
    (alarmTime : Option String) (now : Nat) : List MedicationHistory :=
  hist ++ [{ id := toString now
             medicationId := mid
             medicationName := mname
             takenAt := now
             alarmId := alarmId
             wasOnTime := wasOnTimeFlag alarmTime now }]

/-- `MedicationManager.decreasePillCount` (lines 110-140): find the
first medication with the id, decrement its pill count if positive and
report success, otherwise report failure and leave everything
unchanged.  `now` is the `updatedAt` timestamp string. -/
def decreasePillCount : List Medication → String → String → Bool × List Medication
  | [], _, _ => (false, [])
  | m :: rest, mid, now =>
      if m.id = mid then
        if 0 < m.pillCount then
          (true, { m with pillCount := m.pillCount - 1, updatedAt := now } :: rest)
        else (false, m :: rest)
      else
        let r := decreasePillCount rest mid now
        (r.1, m :: r.2)

/-- The stored medication and alarm collections. -/
structure AppState where
  medications : List Medication
  alarms : List MedicationAlarm
deriving DecidableEq

/-- `MedicationManager.deleteAlarm` (lines 194-204). -/
def deleteAlarmOp (alarms : List MedicationAlarm) (alarmId : String) :
    List MedicationAlarm :=
  alarms.filter (fun a => a.id != alarmId)

/-- `MedicationManager.deleteMedication` (lines 88-98). -/
def deleteMedicationOp (meds : List Medication) (mid : String) :
    List Medication :=
  meds.filter (fun m => m.id != mid)

/-- The delete-medication flow of `HistoryScreen.js` (lines 775-823):
load the alarms, delete each alarm owned by the medication (each
`deleteAlarm` call reloads the then-current collection), then delete
the medication itself. -/
def deleteMedicationFlow (st : AppState) (mid : String) : AppState :=
  let medicationAlarms := st.alarms.filter (fun a => a.medicationId == mid)
  { medications := deleteMedicationOp st.medications mid
    alarms := medicationAlarms.foldl (fun acc a => deleteAlarmOp acc a.id) st.alarms }

/-- The longest-run scan exactly as the specification words it: taken
days in chronological order, a run extended exactly when two dates
differ by exactly 1 day, reset at any gap, the maximum run reported.
`specScan prev cur l` is the best run obtainable when the scan stands
on day `prev` with a current run of length `cur`. -/
def specScan : Nat → Nat → List Nat → Nat
  | _, cur, [] => cur
  | prev, cur, d :: rest =>
      if d = prev + 1 then specScan d (cur + 1) rest
      else max cur (specScan d 1 rest)

/-- The specification's longest streak of a chronologically ordered
list of distinct days. -/
def specLongestRun : List Nat → Nat
  | [] => 0
  | d :: rest => specScan d 1 rest

/-- A concrete stored medication used by witnesses. -/
def medW : Medication :=
  { id := "m1", name := "Med", displayName := "Med", genericName := "g"
    isActive := true, pillCount := 2, alarms := [], createdAt := "c", updatedAt := "u" }

/-- A history entry of medication "m1" at minute timestamp `t`. -/
def entryAt (t : Nat) : MedicationHistory :=
  { id := "", medicationId := "m1", medicationName := "Med"
    takenAt := t, alarmId := none, wasOnTime := true }

/-- Concrete history: one entry on day 99, one on day 100. -/
def histW : List MedicationHistory := [entryAt (99 * 1440), entryAt (100 * 1440)]

/-- Concrete history refuting C5 against the windowed revision: two
entries on day 100 (00:00 and 01:00) and one on day 101 (00:00).  The
distinct taken days 100 and 101 are consecutive, so the claimed scan
gives 2, but the entry-based loop of the windowed revision resets on
the same-day pair and on the 23-hour gap and reports 1. -/
def histK : List MedicationHistory :=
  [entryAt (100 * 1440), entryAt (100 * 1440 + 60), entryAt (101 * 1440)]

/-- One history entry on the day after day 99, i.e. on "today" in the
counterexample. -/
def histSingle : List MedicationHistory := [entryAt (100 * 1440 + 30)]

/-- An enabled Monday alarm at 08:00 on medication "m1". -/
def alarmMon : MedicationAlarm :=
  { id := "a1", medicationId := "m1", medicationName := "Med", time := "08:00"
    lightColor := "", lightIds := [], isEnabled := true, daysOfWeek := [1]
    createdAt := "" }

/-- Five entries on five distinct non-Monday days (70, 71, 72, 73 and
75; with today = 100, the expected Mondays of the window are 74, 81,
88 and 95). -/
def histFive : List MedicationHistory :=
  [entryAt (70 * 1440), entryAt (71 * 1440), entryAt (72 * 1440),
   entryAt (73 * 1440), entryAt (75 * 1440)]

/-- A history entry of "m1" at timestamp `t` recorded against alarm id
`aid`. -/
def entryAtAlarm (t : Nat) (aid : String) : MedicationHistory :=
  { id := "", medicationId := "m1", medicationName := "Med"
    takenAt := t, alarmId := some aid, wasOnTime := true }

/-- Two entries against two distinct alarm ids. -/
def histTwoAlarms : List MedicationHistory :=
  [entryAtAlarm 0 "x", entryAtAlarm 9 "y"]

/-- Whether a trigger is registered under a key derived from the given
alarm id and some weekday 1..7. -/
def keyForAlarm (aid : String) (t : Trigger) : Bool :=
  ((List.range 7).map (fun i => i + 1)).any (fun d => t.key == mkTriggerKey aid d)

/-- A concrete enabled alarm of "m1" at 08:30 on Monday and Wednesday. -/
def alarmW : MedicationAlarm :=
  { id := "a1", medicationId := "m1", medicationName := "Med", time := "08:30"
    lightColor := "", lightIds := [], isEnabled := true, daysOfWeek := [1, 3]
    createdAt := "" }

/-- An enabled alarm whose weekday set mixes the valid value 3 with
the invalid value 8. -/
def alarmMixed : MedicationAlarm :=
  { id := "a1", medicationId := "m1", medicationName := "Med", time := "08:00"
    lightColor := "", lightIds := [], isEnabled := true, daysOfWeek := [3, 8]
    createdAt := "" }

/-- An alarm with the invalid time string "25:00". -/
def alarmBad : MedicationAlarm :=
  { id := "b1", medicationId := "m1", medicationName := "Med", time := "25:00"
    lightColor := "", lightIds := [], isEnabled := true, daysOfWeek := [2]
    createdAt := "" }

/-! ### General lemmas -/

lemma mem_foldl_filter {α β : Type} (p : β → α → Bool) :
    ∀ (l : List β) (init : List α) (x : α),
      x ∈ l.foldl (fun acc b => acc.filter (p b)) init ↔
        x ∈ init ∧ ∀ b ∈ l, p b x = true := by
  intro l
  induction l with
  | nil => simp
  | cons b l ih =>
      intro init x
      rw [List.foldl_cons, ih]
      simp only [List.mem_filter, List.forall_mem_cons]
      tauto

/-! ### C8: resyncAll is idempotent -/

/-- C8: `rescheduleAllMedications` run twice on the same medications
and alarms leaves the trigger collaborator in the same state as one
run (it unconditionally clears all registrations first). -/
theorem rescheduleAll_idempotent (meds : List Medication)
    (alarms : List MedicationAlarm) (st : List Trigger) :
    rescheduleAllMedications meds alarms (rescheduleAllMedications meds alarms st) =
      rescheduleAllMedications meds alarms st := rfl

/-! ### C9: deleting a medication deletes its alarms -/

/-- C9: after the delete-medication flow of `HistoryScreen.js`
completes, no alarm referencing the deleted medication id remains in
the stored alarm collection. -/
theorem deleteMedicationFlow_removes_owned_alarms (st : AppState) (mid : String) :
    (deleteMedicationFlow st mid).alarms.filter (fun a => a.medicationId == mid) = [] := by
  rw [List.filter_eq_nil_iff]
  intro a ha
  rw [deleteMedicationFlow] at ha
  simp only [] at ha
  rw [show (fun acc b => deleteAlarmOp acc b.id) =
      (fun (acc : List MedicationAlarm) (b : MedicationAlarm) =>
        acc.filter (fun x => x.id != b.id)) from rfl] at ha
  rw [mem_foldl_filter] at ha
  obtain ⟨hmem, hall⟩ := ha
  intro hmid
  have ha' : a ∈ st.alarms.filter (fun x => x.medicationId == mid) :=
    List.mem_filter.mpr ⟨hmem, hmid⟩
  have := hall a ha'
  simp at this

/-! ### C3: decreasing the pill count -/

/-- C3: `decreasePillCount` on the stored medication with the given
id: at pill count 0 it returns `false` and leaves the whole stored
collection unchanged; at a positive count it returns `true` and the
stored medication's count drops by exactly 1; and it never makes any
stored pill count negative. -/
theorem decreasePillCount_zero_pos_spec (meds : List Medication)
    (mid now : String) (m : Medication)
    (hfind : meds.find? (fun x => x.id == mid) = some m) :
    (m.pillCount = 0 → decreasePillCount meds mid now = (false, meds)) ∧
    (0 < m.pillCount →
      (decreasePillCount meds mid now).1 = true ∧
      (decreasePillCount meds mid now).2.find? (fun x => x.id == mid) =
        some { m with pillCount := m.pillCount - 1, updatedAt := now }) ∧
    ((∀ x ∈ meds, 0 ≤ x.pillCount) →
      ∀ x ∈ (decreasePillCount meds mid now).2, 0 ≤ x.pillCount) := by
  induction meds with
  | nil => simp at hfind
  | cons hd tl ih =>
      by_cases hid : hd.id = mid
      · have hm : m = hd := by
          rw [List.find?_cons_of_pos _ (by simp [hid])] at hfind
          exact (Option.some_inj.mp hfind).symm
        subst hm
        refine ⟨?_, ?_, ?_⟩
        · intro h0
          simp [decreasePillCount, hid, h0]
        · intro hpos
          constructor
          · simp [decreasePillCount, hid, hpos]
          · simp only [decreasePillCount, hid, if_pos rfl, if_pos hpos]
            exact List.find?_cons_of_pos _ (by simp [hid])
        · intro hnn x hx
          by_cases hpos : 0 < m.pillCount
          · simp only [decreasePillCount, hid, if_pos rfl, if_pos hpos] at hx
            rcases List.mem_cons.mp hx with h | h
            · subst h; simp; omega
            · exact hnn x (List.mem_cons_of_mem _ h)
          · simp only [decreasePillCount, hid, if_pos rfl, if_neg hpos] at hx
            exact hnn x hx
      · have hfind' : tl.find? (fun x => x.id == mid) = some m := by
          rwa [List.find?_cons_of_neg _ (by simp [hid])] at hfind
        obtain ⟨ihz, ihp, ihn⟩ := ih hfind'
        refine ⟨?_, ?_, ?_⟩
        · intro h0
          have := ihz h0
          simp [decreasePillCount, hid, this]
        · intro hpos
          obtain ⟨h1, h2⟩ := ihp hpos
          constructor
          · simp only [decreasePillCount, if_neg hid, h1]
          · simp only [decreasePillCount, if_neg hid]
            rw [List.find?_cons_of_neg _ (by simp [hid])]
            exact h2
        · intro hnn x hx
          simp only [decreasePillCount, if_neg hid] at hx
          rcases List.mem_cons.mp hx with h | h
          · subst h; exact hnn x (List.mem_cons_self _ _)
          · exact ihn (fun y hy => hnn y (List.mem_cons_of_mem _ hy)) x h

/-- Witness for C3 at a concrete store with pill count 2. -/
theorem decreasePillCount_zero_pos_spec_witness :
    [medW].find? (fun x => x.id == "m1") = some medW ∧
    ((0 < medW.pillCount →
      (decreasePillCount [medW] "m1" "T").1 = true ∧
      (decreasePillCount [medW] "m1" "T").2.find? (fun x => x.id == "m1") =
        some { medW with pillCount := medW.pillCount - 1, updatedAt := "T" })) :=
  ⟨by decide, (decreasePillCount_zero_pos_spec [medW] "m1" "T" medW (by decide)).2.1⟩

/-! ### C10: the on-time flag of a recorded history entry -/

/-- C10: the entry appended by `recordMedicationTaken` carries
`wasOnTime = true` when no alarm time is supplied, and otherwise (for
an alarm time parsing to hour `h`, minute `mi`) `wasOnTime = true`
exactly when the recording instant is within 30 minutes of today's
nominal alarm instant, at minute granularity. -/
theorem recordMedicationTaken_wasOnTime_spec (hist : List MedicationHistory)
    (mid mname : String) (aid : Option String) (now : Nat) :
    (∃ e, (recordMedicationTaken hist mid mname aid none now).getLast? = some e ∧
        e.wasOnTime = true) ∧
    (∀ s h mi, parseAlarmTime s = some (h, mi) →
      ∃ e, (recordMedicationTaken hist mid mname aid (some s) now).getLast? = some e ∧
        (e.wasOnTime = true ↔
          ((now : Int) - (nominalAlarmMin now h mi : Int)).natAbs ≤ 30)) := by
  constructor
  · exact ⟨_, List.getLast?_concat _, rfl⟩
  · intro s h mi hp
    refine ⟨_, List.getLast?_concat _, ?_⟩
    show wasOnTimeFlag (some s) now = true ↔ _
    simp only [wasOnTimeFlag, hp]
    exact decide_eq_true_iff

/-- Witness for C10: recording at minute 490 (08:10) against alarm
time "08:00" — 10 minutes after the nominal instant. -/
theorem recordMedicationTaken_wasOnTime_spec_witness :
    parseAlarmTime "08:00" = some (8, 0) ∧
    (∃ e, (recordMedicationTaken [] "m1" "Med" none (some "08:00") 490).getLast? = some e ∧
      (e.wasOnTime = true ↔
        ((490 : Int) - (nominalAlarmMin 490 8 0 : Int)).natAbs ≤ 30)) :=
  ⟨by decide,
    (recordMedicationTaken_wasOnTime_spec [] "m1" "Med" none 490).2 "08:00" 8 0 (by decide)⟩

/-! ### Streak lemmas -/

lemma streakBackAux_le (S : List Int) :
    ∀ (fuel : Nat) (d : Int), streakBackAux S d fuel ≤ fuel := by
  intro fuel
  induction fuel with
  | zero => intro d; simp [streakBackAux]
  | succ n ih =>
      intro d
      rw [streakBackAux]
      split
      · have := ih (d - 1); omega
      · omega

lemma streakBackAux_mem (S : List Int) :
    ∀ (fuel : Nat) (d : Int) (k : Nat), k < streakBackAux S d fuel → d - k ∈ S := by
  intro fuel
  induction fuel with
  | zero => intro d k hk; simp [streakBackAux] at hk
  | succ n ih =>
      intro d k hk
      rw [streakBackAux] at hk
      by_cases hd : d ∈ S
      · rw [if_pos hd] at hk
        match k with
        | 0 => simpa using hd
        | j + 1 =>
            have hj : j < streakBackAux S (d - 1) n := by omega
            have := ih (d - 1) j hj
            have harith : d - (j + 1 : Nat) = d - 1 - j := by push_cast; ring
            rwa [harith]
      · rw [if_neg hd] at hk; omega

lemma streakBackAux_stop (S : List Int) :
    ∀ (fuel : Nat) (d : Int), streakBackAux S d fuel < fuel →
      d - (streakBackAux S d fuel) ∉ S := by
  intro fuel
  induction fuel with
  | zero => intro d h; omega
  | succ n ih =>
      intro d h
      rw [streakBackAux] at h ⊢
      by_cases hd : d ∈ S
      · rw [if_pos hd] at h ⊢
        have hlt : streakBackAux S (d - 1) n < n := by omega
        have := ih (d - 1) hlt
        have harith : d - (1 + streakBackAux S (d - 1) n : Nat) =
            d - 1 - (streakBackAux S (d - 1) n) := by push_cast; ring
        rwa [harith]
      · rw [if_neg hd]
        simpa using hd

lemma streakBackAux_lt_fuel (S : List Int) (d : Int) :
    streakBackAux S d (S.length + 1) < S.length + 1 := by
  by_contra hge
  have heq : streakBackAux S d (S.length + 1) = S.length + 1 := by
    have := streakBackAux_le S (S.length + 1) d
    omega
  have hsub : ((List.range (S.length + 1)).map (fun k : Nat => d - (k : Int))) ⊆ S := by
    intro x hx
    rw [List.mem_map] at hx
    obtain ⟨k, hk, rfl⟩ := hx
    rw [List.mem_range] at hk
    exact streakBackAux_mem S (S.length + 1) d k (by rw [heq]; exact hk)
  have hnd : ((List.range (S.length + 1)).map (fun k : Nat => d - (k : Int))).Nodup := by
    refine (List.nodup_range _).map ?_
    intro a b hab
    simp only [sub_right_inj, Int.natCast_inj] at hab
    exact hab
  have := (hnd.subperm hsub).length_le
  simp at this

/-- The backward walk of the current-streak loop, characterized: every
day within the streak counting back from `today` is a taken day, and
the day right past the streak is not. -/
lemma currentStreakOf_spec (S : List Int) (today : Int) :
    (∀ k : Nat, k < currentStreakOf S today → today - k ∈ S) ∧
      today - (currentStreakOf S today : Nat) ∉ S :=
  ⟨fun k hk => streakBackAux_mem S (S.length + 1) today k hk,
   streakBackAux_stop S (S.length + 1) today (streakBackAux_lt_fuel S today)⟩

lemma takenDaysI_nodup (entries : List MedicationHistory) :
    (takenDaysI entries).Nodup := by
  refine (List.nodup_dedup _).map ?_
  intro a b hab
  exact Int.ofNat.inj hab

lemma statsV2_currentStreak (med : Medication) (alarms : List MedicationAlarm)
    (hist : List MedicationHistory) (today : Nat) :
    (calculateAdherenceStatsV2 med alarms hist today).currentStreak =
      currentStreakOf (takenDaysI (historyFor hist med.id)) today := by
  by_cases h : historyFor hist med.id = []
  · simp [calculateAdherenceStatsV2, h, zeroStats, currentStreakOf, takenDaysI,
      takenDaysN, streakBackAux]
  · simp [calculateAdherenceStatsV2, h]

lemma statsV1_currentStreak (med : Medication) (alarms : List MedicationAlarm)
    (hist : List MedicationHistory) (today : Nat) :
    (calculateAdherenceStatsV1 med alarms hist today).currentStreak =
      currentStreakOf (takenDaysI (historyFor hist med.id)) today := by
  by_cases h : historyFor hist med.id = []
  · simp [calculateAdherenceStatsV1, h, currentStreakOf, takenDaysI,
      takenDaysN, streakBackAux]
  · simp [calculateAdherenceStatsV1, h]

/-! ### C6: the current streak walks backward from today -/

/-- C6: in both revisions of `calculateAdherenceStats`, the current
streak is the number of consecutive calendar days, walking backward
from today, that are taken days: every day within the streak is taken,
the first day past it is not, and in particular a day without any
entry today gives streak 0. -/
theorem currentStreak_backward_walk (med : Medication)
    (alarms : List MedicationAlarm) (hist : List MedicationHistory) (today : Nat) :
    ((∀ k : Nat, k < (calculateAdherenceStatsV2 med alarms hist today).currentStreak →
        (today : Int) - k ∈ takenDaysI (historyFor hist med.id)) ∧
      (today : Int) - ((calculateAdherenceStatsV2 med alarms hist today).currentStreak : Nat) ∉
        takenDaysI (historyFor hist med.id) ∧
      ((today : Int) ∉ takenDaysI (historyFor hist med.id) →
        (calculateAdherenceStatsV2 med alarms hist today).currentStreak = 0)) ∧
    ((∀ k : Nat, k < (calculateAdherenceStatsV1 med alarms hist today).currentStreak →
        (today : Int) - k ∈ takenDaysI (historyFor hist med.id)) ∧
      (today : Int) - ((calculateAdherenceStatsV1 med alarms hist today).currentStreak : Nat) ∉
        takenDaysI (historyFor hist med.id) ∧
      ((today : Int) ∉ takenDaysI (historyFor hist med.id) →
        (calculateAdherenceStatsV1 med alarms hist today).currentStreak = 0)) := by
  have hspec := currentStreakOf_spec (takenDaysI (historyFor hist med.id)) (today : Int)
  rw [statsV2_currentStreak, statsV1_currentStreak]
  have hzero : (today : Int) ∉ takenDaysI (historyFor hist med.id) →
      currentStreakOf (takenDaysI (historyFor hist med.id)) today = 0 := by
    intro hnot
    by_contra hne
    have h0 : 0 < currentStreakOf (takenDaysI (historyFor hist med.id)) today := by omega
    have := hspec.1 0 h0
    simp at this
    exact hnot this
  exact ⟨⟨hspec.1, hspec.2, hzero⟩, ⟨hspec.1, hspec.2, hzero⟩⟩

/-- Witness for C6 at the concrete history `histW`, today = day 100:
the streak is positive and today is a taken day. -/
theorem currentStreak_backward_walk_witness :
    0 < (calculateAdherenceStatsV2 medW [] histW 100).currentStreak ∧
    ((100 : Nat) : Int) - ((0 : Nat) : Int) ∈ takenDaysI (historyFor histW medW.id) :=
  ⟨by decide, (currentStreak_backward_walk medW [] histW 100).1.1 0 (by decide)⟩

/-! ### C5: the longest streak -/

lemma streakLoop_eq_max_specScan (l : List Nat) :
    ∀ prev temp longest, streakLoop prev temp longest l = max longest (specScan prev temp l) := by
  induction l with
  | nil => intro prev temp longest; rfl
  | cons d rest ih =>
      intro prev temp longest
      by_cases h : (d : Int) - (prev : Int) = 1
      · have hd : d = prev + 1 := by omega
        rw [streakLoop, specScan, if_pos h, if_pos hd, ih]
      · have hd : ¬ d = prev + 1 := by omega
        rw [streakLoop, specScan, if_neg h, if_neg hd, ih]
        rw [Nat.max_assoc]

/-- The first revision's longest-streak loop computes exactly the
specification's scan over the sorted distinct taken days. -/
lemma longestStreakV1_eq_spec (entries : List MedicationHistory) :
    longestStreakV1 entries = specLongestRun (distinctSortedDays entries) := by
  cases h : distinctSortedDays entries with
  | nil => rw [longestStreakV1, h]; rfl
  | cons d rest =>
      rw [longestStreakV1, h]
      show streakLoop d 1 0 rest = specLongestRun (d :: rest)
      rw [specLongestRun, streakLoop_eq_max_specScan]
      exact Nat.zero_max _

lemma historyFor_cons_self (hist : List MedicationHistory)
    (e : MedicationHistory) (mid : String) (h : e.medicationId = mid) :
    historyFor (e :: hist) mid = e :: historyFor hist mid := by
  simp [historyFor, h]

/-- C5 (amended): in the first (day-deduplicated) revision, the
longest streak is exactly the specification's scan over the distinct
taken days in chronological order, and an additional entry on an
already-taken calendar day leaves it unchanged. -/
theorem longestStreakV1_matches_claim (med : Medication)
    (alarms : List MedicationAlarm) (hist : List MedicationHistory) (today : Nat)
    (hne : historyFor hist med.id ≠ []) :
    (calculateAdherenceStatsV1 med alarms hist today).longestStreak =
      specLongestRun (distinctSortedDays (historyFor hist med.id)) ∧
    (∀ e : MedicationHistory, e.medicationId = med.id →
      takenDay e.takenAt ∈ (historyFor hist med.id).map (fun x => takenDay x.takenAt) →
      (calculateAdherenceStatsV1 med alarms (e :: hist) today).longestStreak =
        (calculateAdherenceStatsV1 med alarms hist today).longestStreak) := by
  constructor
  · show (if historyFor hist med.id = [] then 0
        else longestStreakV1 (historyFor hist med.id)) = _
    rw [if_neg hne, longestStreakV1_eq_spec]
  · intro e he hmem
    have hcons := historyFor_cons_self hist e med.id he
    show (if historyFor (e :: hist) med.id = [] then 0
        else longestStreakV1 (historyFor (e :: hist) med.id)) =
      (if historyFor hist med.id = [] then 0
        else longestStreakV1 (historyFor hist med.id))
    rw [hcons, if_neg (List.cons_ne_nil _ _), if_neg hne]
    rw [longestStreakV1_eq_spec, longestStreakV1_eq_spec]
    have : distinctSortedDays (e :: historyFor hist med.id) =
        distinctSortedDays (historyFor hist med.id) := by
      rw [distinctSortedDays, distinctSortedDays, takenDaysN, takenDaysN]
      rw [List.map_cons, List.dedup_cons_of_mem hmem]
    rw [this]

/-- Witness for C5 at the concrete history `histW` (days 99 and 100,
today = day 100). -/
theorem longestStreakV1_matches_claim_witness :
    historyFor histW medW.id ≠ [] ∧
    (calculateAdherenceStatsV1 medW [] histW 100).longestStreak =
      specLongestRun (distinctSortedDays (historyFor histW medW.id)) :=
  ⟨by decide, (longestStreakV1_matches_claim medW [] histW 100 (by decide)).1⟩

/-- Counterexample to C5 as stated: the windowed revision's
`longestStreak` is 1 on `histK`, while the longest run of consecutive
calendar dates among its distinct taken days is 2. -/
theorem longestStreakV2_undercounts_consecutive_days :
    (calculateAdherenceStatsV2 medW [] histK 131).longestStreak = 1 ∧
    specLongestRun (distinctSortedDays (historyFor histK medW.id)) = 2 := by decide

/-! ### C7: empty configurations -/

lemma jsRound100_zero (e : Nat) (he : 0 < e) : jsRound100 0 e = 0 := by
  rw [jsRound100]
  exact Nat.div_eq_of_lt (by omega)

/-- C7 (amended): a medication with zero enabled alarms gets
`adherenceRate = 0` and `missedDays = 0` without error in both
revisions (its `totalTaken` and streaks still reflect recorded
history; the statistics are all-zero only when the history is empty
too); a medication with zero history entries gets the all-zero record
from the windowed revision, and `totalTaken = 0`, `adherenceRate = 0`
and zero streaks from the first revision. -/
theorem emptyConfig_stats_amended (med : Medication)
    (alarms : List MedicationAlarm) (hist : List MedicationHistory) (today : Nat) :
    (alarms.filter (fun a => a.isEnabled) = [] →
      (calculateAdherenceStatsV2 med alarms hist today).adherenceRate = 0 ∧
      (calculateAdherenceStatsV2 med alarms hist today).missedDays = 0 ∧
      (calculateAdherenceStatsV1 med alarms hist today).adherenceRate = 0 ∧
      (calculateAdherenceStatsV1 med alarms hist today).missedDays = 0) ∧
    (historyFor hist med.id = [] →
      calculateAdherenceStatsV2 med alarms hist today = zeroStats med ∧
      (calculateAdherenceStatsV1 med alarms hist today).totalTaken = 0 ∧
      (calculateAdherenceStatsV1 med alarms hist today).adherenceRate = 0 ∧
      (calculateAdherenceStatsV1 med alarms hist today).currentStreak = 0 ∧
      (calculateAdherenceStatsV1 med alarms hist today).longestStreak = 0) := by
  constructor
  · intro hen
    have hexp : expectedDaysV2 alarms today = [] := by
      rw [expectedDaysV2, hen]; rfl
    have hal : (alarms.filter (fun a => a.isEnabled)).length = 0 := by rw [hen]; rfl
    refine ⟨?_, ?_, ?_, ?_⟩
    · by_cases h : historyFor hist med.id = []
      · simp [calculateAdherenceStatsV2, h, zeroStats]
      · simp [calculateAdherenceStatsV2, h, hexp]
    · by_cases h : historyFor hist med.id = []
      · simp [calculateAdherenceStatsV2, h, zeroStats]
      · simp [calculateAdherenceStatsV2, h, hexp]
    · simp [calculateAdherenceStatsV1, hal]
    · simp [calculateAdherenceStatsV1, hal]
  · intro hh
    refine ⟨?_, ?_, ?_, ?_, ?_⟩
    · simp [calculateAdherenceStatsV2, hh]
    · simp [calculateAdherenceStatsV1, hh]
    · simp only [calculateAdherenceStatsV1, hh]
      simp only [List.map_nil, List.dedup_nil, List.length_nil]
      split
      · rename_i hpos
        exact jsRound100_zero _ hpos
      · rfl
    · simp [calculateAdherenceStatsV1, hh]
    · simp [calculateAdherenceStatsV1, hh]

/-- Witness for C7 (amended) with no alarms and the concrete history
`histW`. -/
theorem emptyConfig_stats_amended_witness :
    (([] : List MedicationAlarm).filter (fun a => a.isEnabled) = [] ∧
      (calculateAdherenceStatsV2 medW [] histW 100).adherenceRate = 0) ∧
    (historyFor ([] : List MedicationHistory) medW.id = [] ∧
      calculateAdherenceStatsV2 medW [] ([] : List MedicationHistory) 100 = zeroStats medW) :=
  ⟨⟨rfl, ((emptyConfig_stats_amended medW [] histW 100).1 rfl).1⟩,
   ⟨rfl, ((emptyConfig_stats_amended medW [] ([] : List MedicationHistory) 100).2 rfl).1⟩⟩

/-- Counterexample to C7 as stated: a medication with zero enabled
alarms but one history entry today does not get all-zero statistics —
`totalTaken`, `currentStreak` and `longestStreak` are all 1. -/
theorem zeroAlarms_stats_not_all_zero :
    (calculateAdherenceStatsV2 medW [] histSingle 100).totalTaken = 1 ∧
    (calculateAdherenceStatsV2 medW [] histSingle 100).currentStreak = 1 ∧
    (calculateAdherenceStatsV2 medW [] histSingle 100).longestStreak = 1 := by decide

/-! ### C1: the adherence rate is not clamped by the expected days -/

/-- C1 fails on the code: the windowed revision divides the count of
all distinct taken days (not intersected with the expected window
days) by the count of expected days, producing 125 on `histFive` even
though no taken day is an expected day (the claimed formula gives 0);
the alarm-count revision likewise produces 200 from two distinct alarm
ids against a single enabled alarm.  Both exceed the claimed 0–100
range. -/
theorem adherenceRate_exceeds_100 :
    (calculateAdherenceStatsV2 medW [alarmMon] histFive 100).adherenceRate = 125 ∧
    (expectedDaysV2 [alarmMon] 100).length = 4 ∧
    (takenDaysN (historyFor histFive medW.id)).filter
      (fun d => decide (d ∈ expectedDaysV2 [alarmMon] 100)) = [] ∧
    (calculateAdherenceStatsV1 medW [alarmMon] histTwoAlarms 100).adherenceRate = 200 := by
  decide

/-! ### Registration-store lemmas -/

lemma register_filter_eq (ts : List Trigger) (r : Trigger) (k : String) :
    (registerTrigger ts r).filter (fun t => t.key == k) =
      if r.key = k then [r] else ts.filter (fun t => t.key == k) := by
  rw [registerTrigger, List.filter_append]
  by_cases h : r.key = k
  · rw [if_pos h]
    have h1 : (ts.filter (fun u => u.key != r.key)).filter (fun t => t.key == k) = [] := by
      rw [List.filter_filter]
      rw [List.filter_eq_nil_iff]
      intro u _
      by_cases hu : u.key = k
      · simp [hu, h]
      · simp [hu]
    rw [h1]
    simp [h]
  · rw [if_neg h]
    have h2 : ([r].filter (fun t => t.key == k)) = [] := by simp [h]
    rw [h2, List.append_nil, List.filter_filter]
    apply List.filter_congr
    intro u _
    by_cases hu : u.key = k
    · simp [hu]
      exact fun hk => absurd hk.symm h
    · simp [hu]

lemma foldl_register_filter (k : String) (regs : List Trigger) :
    ∀ ts, (regs.foldl registerTrigger ts).filter (fun t => t.key == k) =
      match regs.reverse.find? (fun t => t.key == k) with
      | some r => [r]
      | none => ts.filter (fun t => t.key == k) := by
  induction regs with
  | nil => intro ts; rfl
  | cons r rs ih =>
      intro ts
      rw [List.foldl_cons, ih, List.reverse_cons, List.find?_append]
      cases h : rs.reverse.find? (fun t => t.key == k) with
      | some x => rfl
      | none =>
          show (registerTrigger ts r).filter (fun t => t.key == k) =
            match Option.or none ([r].find? (fun t => t.key == k)) with
            | some r => [r]
            | none => ts.filter (fun t => t.key == k)
          rw [register_filter_eq]
          by_cases hr : r.key = k
          · rw [if_pos hr]
            have hb : (r.key == k) = true := by simp [hr]
            simp [List.find?, hb]
          · rw [if_neg hr]
            have hb : (r.key == k) = false := by simp [hr]
            simp [List.find?, hb]

lemma mem_foldl_register (regs : List Trigger) :
    ∀ ts t, t ∈ regs.foldl registerTrigger ts → t ∈ regs ∨ t ∈ ts := by
  induction regs with
  | nil => intro ts t h; right; exact h
  | cons r rs ih =>
      intro ts t h
      rw [List.foldl_cons] at h
      rcases ih _ t h with h1 | h1
      · left; exact List.mem_cons_of_mem _ h1
      · rw [registerTrigger, List.mem_append] at h1
        rcases h1 with h2 | h2
        · right; exact (List.mem_filter.mp h2).1
        · left; simp at h2; simp [h2]

lemma pairwise_keys_foldl_register (regs : List Trigger) :
    ∀ ts, ts.Pairwise (fun a b => a.key ≠ b.key) →
      (regs.foldl registerTrigger ts).Pairwise (fun a b => a.key ≠ b.key) := by
  induction regs with
  | nil => intro ts h; exact h
  | cons r rs ih =>
      intro ts h
      rw [List.foldl_cons]
      apply ih
      rw [registerTrigger, List.pairwise_append]
      refine ⟨h.sublist (List.filter_sublist ts), List.pairwise_singleton _ _, ?_⟩
      intro a ha b hb
      rw [List.mem_filter] at ha
      rw [List.mem_singleton] at hb
      subst hb
      simpa using ha.2

lemma find?_eq_some_of_unique (l : List Trigger) (k : String) (t : Trigger)
    (hmem : t ∈ l) (hkey : t.key = k)
    (huniq : ∀ r ∈ l, r.key = k → r = t) :
    l.find? (fun r => r.key == k) = some t := by
  cases h : l.find? (fun r => r.key == k) with
  | none =>
      rw [List.find?_eq_none] at h
      exact absurd (by simp [hkey]) (h t hmem)
  | some x =>
      have hx := List.find?_some h
      have hxl := List.mem_of_find?_eq_some h
      rw [huniq x hxl (by simpa using hx)]

lemma mem_alarmRegistrations (m : Medication) (a : MedicationAlarm) (t : Trigger) :
    t ∈ alarmRegistrations m a ↔
      ∃ h mi, parseAlarmTime a.time = some (h, mi) ∧
        ∃ d ∈ a.daysOfWeek, (1 ≤ d ∧ d ≤ 7) ∧ t = mkTrigger m a h mi d := by
  cases hp : parseAlarmTime a.time with
  | none => simp [alarmRegistrations, hp]
  | some pr =>
      obtain ⟨h, mi⟩ := pr
      rw [alarmRegistrations, hp]
      constructor
      · intro ht
        rw [List.mem_map] at ht
        obtain ⟨d, hd, rfl⟩ := ht
        rw [List.mem_filter] at hd
        exact ⟨h, mi, rfl, d, hd.1, by simpa using hd.2, rfl⟩
      · rintro ⟨h', mi', heq, d, hd, hrange, rfl⟩
        obtain ⟨rfl, rfl⟩ : h = h' ∧ mi = mi' := by
          injection heq with heq'
          exact ⟨congrArg Prod.fst heq', congrArg Prod.snd heq'⟩
        rw [List.mem_map]
        exact ⟨d, List.mem_filter.mpr ⟨hd, by simpa using hrange⟩, rfl⟩

lemma mem_rescheduleRegs (meds : List Medication) (alarms : List MedicationAlarm)
    (t : Trigger) :
    t ∈ rescheduleRegs meds alarms ↔
      ∃ m ∈ meds, m.id ≠ "" ∧ ∃ a ∈ alarms, a.medicationId = m.id ∧
        a.isEnabled = true ∧ t ∈ alarmRegistrations m a := by
  rw [rescheduleRegs]
  constructor
  · intro h
    rw [List.mem_flatMap] at h
    obtain ⟨m, hm, ht⟩ := h
    by_cases hid : m.id = ""
    · rw [if_pos hid] at ht; simp at ht
    · rw [if_neg hid] at ht
      rw [List.mem_flatMap] at ht
      obtain ⟨a, ha, hta⟩ := ht
      rw [List.mem_filter] at ha
      have hcond : a.medicationId = m.id ∧ a.isEnabled = true := by
        have := ha.2
        simp only [Bool.and_eq_true, beq_iff_eq] at this
        exact this
      exact ⟨m, hm, hid, a, ha.1, hcond.1, hcond.2, hta⟩
  · rintro ⟨m, hm, hid, a, ha, h1, h2, hta⟩
    rw [List.mem_flatMap]
    refine ⟨m, hm, ?_⟩
    rw [if_neg hid, List.mem_flatMap]
    exact ⟨a, List.mem_filter.mpr ⟨ha, by simp [h1, h2]⟩, hta⟩

/-! ### Injectivity of the composite trigger key -/

lemma toString_digit_len (d : Nat) (h1 : 1 ≤ d) (h7 : d ≤ 7) :
    (toString d).data.length = 1 := by
  interval_cases d <;> rfl

lemma toString_digit_inj (d₁ d₂ : Nat) (h₁ : 1 ≤ d₁ ∧ d₁ ≤ 7) (h₂ : 1 ≤ d₂ ∧ d₂ ≤ 7)
    (h : (toString d₁).data = (toString d₂).data) : d₁ = d₂ := by
  obtain ⟨a, b⟩ := h₁
  obtain ⟨c, e⟩ := h₂
  interval_cases d₁ <;> interval_cases d₂ <;> revert h <;> decide

lemma mkTriggerKey_inj (id₁ id₂ : String) (d₁ d₂ : Nat)
    (h₁ : 1 ≤ d₁ ∧ d₁ ≤ 7) (h₂ : 1 ≤ d₂ ∧ d₂ ≤ 7)
    (h : mkTriggerKey id₁ d₁ = mkTriggerKey id₂ d₂) : id₁ = id₂ ∧ d₁ = d₂ := by
  have hdata := congrArg String.data h
  simp only [mkTriggerKey, String.data_append, List.append_assoc] at hdata
  rw [← List.append_assoc "alarm_".data, ← List.append_assoc "alarm_".data] at hdata
  have hlen : (['_'] ++ (toString d₁).data).length =
      (['_'] ++ (toString d₂).data).length := by
    rw [List.length_append, List.length_append,
      toString_digit_len d₁ h₁.1 h₁.2, toString_digit_len d₂ h₂.1 h₂.2]
  have hsplit := List.append_inj' hdata hlen
  constructor
  · exact String.ext (List.append_cancel_left hsplit.1)
  · exact toString_digit_inj d₁ d₂ h₁ h₂ (List.append_cancel_left hsplit.2)

/-! ### Characterizing the registrations of one alarm -/

lemma regs_key_unique (meds : List Medication) (alarms : List MedicationAlarm)
    (m : Medication) (a : MedicationAlarm) (h mi : Nat)
    (hm : m ∈ meds)
    (hmu : ∀ m' ∈ meds, m'.id = m.id → m' = m)
    (hamid : a.medicationId = m.id)
    (hau : ∀ b ∈ alarms, b.id = a.id → b = a)
    (hparse : parseAlarmTime a.time = some (h, mi))
    (d : Nat) (hd : 1 ≤ d ∧ d ≤ 7) :
    ∀ r ∈ rescheduleRegs meds alarms, r.key = mkTriggerKey a.id d →
      r = mkTrigger m a h mi d ∧ d ∈ a.daysOfWeek := by
  intro r hr hkey
  rw [mem_rescheduleRegs] at hr
  obtain ⟨m', hm', hid', a', ha', hmid', hen', hta'⟩ := hr
  rw [mem_alarmRegistrations] at hta'
  obtain ⟨h', mi', hp', d', hd', hrange', rfl⟩ := hta'
  have hkey' : mkTriggerKey a'.id d' = mkTriggerKey a.id d := hkey
  obtain ⟨hid_eq, hd_eq⟩ := mkTriggerKey_inj a'.id a.id d' d hrange' hd hkey'
  subst hd_eq
  have haa : a' = a := hau a' ha' hid_eq
  subst haa
  have hmm : m' = m := hmu m' hm' (hmid'.symm.trans hamid)
  subst hmm
  rw [hparse] at hp'
  obtain ⟨rfl, rfl⟩ : h = h' ∧ mi = mi' := by
    injection hp' with hp''
    exact ⟨congrArg Prod.fst hp'', congrArg Prod.snd hp''⟩
  exact ⟨rfl, hd'⟩

lemma regs_key_mem (meds : List Medication) (alarms : List MedicationAlarm)
    (m : Medication) (a : MedicationAlarm) (h mi : Nat)
    (hm : m ∈ meds) (hmid : m.id ≠ "")
    (ha : a ∈ alarms) (hamid : a.medicationId = m.id) (hen : a.isEnabled = true)
    (hparse : parseAlarmTime a.time = some (h, mi))
    (d : Nat) (hd : 1 ≤ d ∧ d ≤ 7) (hdW : d ∈ a.daysOfWeek) :
    mkTrigger m a h mi d ∈ rescheduleRegs meds alarms :=
  (mem_rescheduleRegs meds alarms _).mpr
    ⟨m, hm, hmid, a, ha, hamid, hen,
      (mem_alarmRegistrations m a _).mpr ⟨h, mi, hparse, d, hdW, hd, rfl⟩⟩

lemma final_filter_key_single (meds : List Medication)
    (alarms : List MedicationAlarm) (st : List Trigger)
    (m : Medication) (a : MedicationAlarm) (h mi : Nat)
    (hm : m ∈ meds) (hmid : m.id ≠ "")
    (hmu : ∀ m' ∈ meds, m'.id = m.id → m' = m)
    (ha : a ∈ alarms) (hamid : a.medicationId = m.id) (hen : a.isEnabled = true)
    (hau : ∀ b ∈ alarms, b.id = a.id → b = a)
    (hparse : parseAlarmTime a.time = some (h, mi))
    (d : Nat) (hd : 1 ≤ d ∧ d ≤ 7) (hdW : d ∈ a.daysOfWeek) :
    (rescheduleAllMedications meds alarms st).filter
        (fun t => t.key == mkTriggerKey a.id d) = [mkTrigger m a h mi d] := by
  rw [rescheduleAllMedications, cancelAllTriggers, foldl_register_filter]
  have hfind : (rescheduleRegs meds alarms).reverse.find?
      (fun t => t.key == mkTriggerKey a.id d) = some (mkTrigger m a h mi d) := by
    apply find?_eq_some_of_unique
    · exact List.mem_reverse.mpr
        (regs_key_mem meds alarms m a h mi hm hmid ha hamid hen hparse d hd hdW)
    · rfl
    · intro r hr hkey
      exact (regs_key_unique meds alarms m a h mi hm hmu hamid hau hparse d hd r
        (List.mem_reverse.mp hr) hkey).1
  rw [hfind]

lemma mem_range7 (d : Nat) :
    d ∈ (List.range 7).map (fun i => i + 1) ↔ 1 ≤ d ∧ d ≤ 7 := by
  rw [List.mem_map]
  constructor
  · rintro ⟨i, hi, rfl⟩
    rw [List.mem_range] at hi
    omega
  · intro hd
    exact ⟨d - 1, List.mem_range.mpr (by omega), by omega⟩

lemma keyForAlarm_iff (aid : String) (t : Trigger) :
    keyForAlarm aid t = true ↔ ∃ d, (1 ≤ d ∧ d ≤ 7) ∧ t.key = mkTriggerKey aid d := by
  rw [keyForAlarm, List.any_eq_true]
  constructor
  · rintro ⟨d, hd, hk⟩
    exact ⟨d, (mem_range7 d).mp hd, by simpa using hk⟩
  · rintro ⟨d, hd, hk⟩
    exact ⟨d, (mem_range7 d).mpr hd, by simpa using hk⟩

/-! ### C2: resyncAll registers exactly one trigger per weekday -/

/-- C2: after `rescheduleAllMedications`, an enabled alarm of a stored
medication whose time parses to a valid hour/minute and whose weekday
set is a non-empty duplicate-free subset of 1..7 has, in the trigger
collaborator, exactly one trigger per weekday `d` — registered under
the composite key `alarm_<id>_<d>`, carrying the parsed hour and
minute and the payload {medicationId, alarmId, medicationName,
alarmTime} — and exactly `|daysOfWeek|` triggers in total under keys
derived from this alarm, whatever triggers were registered before the
call (no stale or duplicate registrations). -/
theorem rescheduleAll_exact_triggers (meds : List Medication)
    (alarms : List MedicationAlarm) (st : List Trigger)
    (m : Medication) (a : MedicationAlarm) (h mi : Nat)
    (hm : m ∈ meds) (hmid : m.id ≠ "")
    (hmu : ∀ m' ∈ meds, m'.id = m.id → m' = m)
    (ha : a ∈ alarms) (hamid : a.medicationId = m.id) (hen : a.isEnabled = true)
    (hau : ∀ b ∈ alarms, b.id = a.id → b = a)
    (hparse : parseAlarmTime a.time = some (h, mi))
    (hnd : a.daysOfWeek.Nodup)
    (hrange : ∀ d ∈ a.daysOfWeek, 1 ≤ d ∧ d ≤ 7) :
    (∀ d ∈ a.daysOfWeek,
      (rescheduleAllMedications meds alarms st).filter
          (fun t => t.key == mkTriggerKey a.id d) =
        [{ key := mkTriggerKey a.id d, weekday := expoWeekday d
           hour := h, minute := mi
           payload := { medicationId := m.id, alarmId := a.id
                        medicationName := m.name, alarmTime := a.time } }]) ∧
    ((rescheduleAllMedications meds alarms st).filter (keyForAlarm a.id)).length =
      a.daysOfWeek.length := by
  have hsingle : ∀ d ∈ a.daysOfWeek,
      (rescheduleAllMedications meds alarms st).filter
        (fun t => t.key == mkTriggerKey a.id d) = [mkTrigger m a h mi d] :=
    fun d hdW => final_filter_key_single meds alarms st m a h mi hm hmid hmu ha
      hamid hen hau hparse d (hrange d hdW) hdW
  constructor
  · intro d hdW
    exact hsingle d hdW
  · have hpw : (rescheduleAllMedications meds alarms st).Pairwise
        (fun x y => x.key ≠ y.key) := by
      rw [rescheduleAllMedications, cancelAllTriggers]
      exact pairwise_keys_foldl_register _ [] List.Pairwise.nil
    have hmemregs : ∀ t ∈ rescheduleAllMedications meds alarms st,
        t ∈ rescheduleRegs meds alarms := by
      intro t ht
      rw [rescheduleAllMedications, cancelAllTriggers] at ht
      rcases mem_foldl_register _ [] t ht with h1 | h1
      · exact h1
      · simp at h1
    have hFchar : ∀ t ∈ (rescheduleAllMedications meds alarms st).filter (keyForAlarm a.id),
        ∃ d ∈ a.daysOfWeek, t = mkTrigger m a h mi d := by
      intro t ht
      rw [List.mem_filter] at ht
      obtain ⟨d₀, hd₀, hk₀⟩ := (keyForAlarm_iff a.id t).mp ht.2
      obtain ⟨rfl, hdW⟩ := regs_key_unique meds alarms m a h mi hm hmu hamid hau
        hparse d₀ hd₀ t (hmemregs t ht.1) hk₀
      exact ⟨d₀, hdW, rfl⟩
    have hmemiff : ∀ s,
        s ∈ ((rescheduleAllMedications meds alarms st).filter (keyForAlarm a.id)).map
            (fun t => t.key) ↔
          s ∈ a.daysOfWeek.map (mkTriggerKey a.id) := by
      intro s
      constructor
      · intro hs
        rw [List.mem_map] at hs
        obtain ⟨t, htF, rfl⟩ := hs
        obtain ⟨d, hdW, rfl⟩ := hFchar t htF
        rw [List.mem_map]
        exact ⟨d, hdW, rfl⟩
      · intro hs
        rw [List.mem_map] at hs
        obtain ⟨d, hdW, rfl⟩ := hs
        have htfinal : mkTrigger m a h mi d ∈ rescheduleAllMedications meds alarms st := by
          have hmemf : mkTrigger m a h mi d ∈
              (rescheduleAllMedications meds alarms st).filter
                (fun t => t.key == mkTriggerKey a.id d) := by
            rw [hsingle d hdW]
            exact List.mem_singleton_self _
          exact (List.mem_filter.mp hmemf).1
        rw [List.mem_map]
        refine ⟨mkTrigger m a h mi d, ?_, rfl⟩
        rw [List.mem_filter]
        exact ⟨htfinal, (keyForAlarm_iff a.id _).mpr ⟨d, hrange d hdW, rfl⟩⟩
    have hnodF : (((rescheduleAllMedications meds alarms st).filter
        (keyForAlarm a.id)).map (fun t => t.key)).Nodup := by
      apply List.pairwise_map.mpr
      exact hpw.sublist (List.filter_sublist _)
    have hnodW : (a.daysOfWeek.map (mkTriggerKey a.id)).Nodup := by
      apply List.pairwise_map.mpr
      refine List.Pairwise.imp_of_mem ?_ hnd
      intro d₁ d₂ h1 h2 hne12 heq
      exact hne12 (mkTriggerKey_inj a.id a.id d₁ d₂ (hrange _ h1) (hrange _ h2) heq).2
    have hlen := ((List.perm_ext_iff_of_nodup hnodF hnodW).mpr hmemiff).length_eq
    rw [List.length_map, List.length_map] at hlen
    exact hlen

/-- Witness for C2 at one medication with one enabled Monday/Wednesday
alarm. -/
theorem rescheduleAll_exact_triggers_witness :
    parseAlarmTime alarmW.time = some (8, 30) ∧
    ((rescheduleAllMedications [medW] [alarmW] []).filter (keyForAlarm alarmW.id)).length =
      alarmW.daysOfWeek.length :=
  ⟨by decide,
   (rescheduleAll_exact_triggers [medW] [alarmW] [] medW alarmW 8 30
      (by decide) (by decide) (by decide) (by decide) (by decide) (by decide)
      (by decide) (by decide) (by decide) (by decide)).2⟩

/-! ### C4: malformed alarms in a resync -/

/-- Counterexample to C4 as stated: an alarm whose weekday set
contains the out-of-range value 8 is not skipped as a whole — the
resync still registers its day-3 trigger (only the value 8 is
skipped). -/
theorem outOfRange_weekday_alarm_still_registers :
    8 ∈ alarmMixed.daysOfWeek ∧
    (rescheduleAllMedications [medW] [alarmMixed] []).filter
        (fun t => t.key == mkTriggerKey alarmMixed.id 3) =
      [mkTrigger medW alarmMixed 8 0 3] ∧
    (rescheduleAllMedications [medW] [alarmMixed] []).length = 1 := by decide

lemma flatMap_filter_ne {α : Type} [DecidableEq α] (F : α → List Trigger)
    (abad : α) (hF : F abad = []) :
    ∀ l : List α, l.flatMap F = (l.filter (fun b => decide (b ≠ abad))).flatMap F := by
  intro l
  induction l with
  | nil => rfl
  | cons b rest ih =>
      rw [List.flatMap_cons, List.filter_cons]
      by_cases hb : b = abad
      · subst hb
        rw [if_neg (by simp), hF, List.nil_append]
        exact ih
      · rw [if_pos (by simp [hb]), List.flatMap_cons, ih]

lemma rescheduleRegs_drop_invalid (meds : List Medication)
    (alarms : List MedicationAlarm) (abad : MedicationAlarm)
    (hbad : parseAlarmTime abad.time = none) :
    rescheduleRegs meds alarms =
      rescheduleRegs meds (alarms.filter (fun b => decide (b ≠ abad))) := by
  induction meds with
  | nil => rfl
  | cons m ms ih =>
      rw [rescheduleRegs, List.flatMap_cons, rescheduleRegs, List.flatMap_cons]
      rw [rescheduleRegs, rescheduleRegs] at ih
      rw [ih]
      congr 1
      by_cases hid : m.id = ""
      · rw [if_pos hid, if_pos hid]
      · rw [if_neg hid, if_neg hid]
        have hreg : alarmRegistrations m abad = [] := by
          rw [alarmRegistrations, hbad]
        rw [List.filter_comm]
        exact flatMap_filter_ne (alarmRegistrations m) abad hreg _

/-- C4 (amended): during a resync, an alarm whose time string fails
validation registers nothing — the outcome is exactly as if it were
absent, so every other alarm (in particular every valid one) still
gets all of its triggers; and every registered trigger comes from an
in-range weekday (1..7) of some stored enabled alarm, so out-of-range
weekday values never register a trigger (an alarm with a mixed weekday
set is skipped per-value, not as a whole). -/
theorem invalid_alarm_skipped_amended (meds : List Medication)
    (alarms : List MedicationAlarm) (st : List Trigger)
    (abad : MedicationAlarm) (hbad : parseAlarmTime abad.time = none) :
    (rescheduleAllMedications meds alarms st =
      rescheduleAllMedications meds (alarms.filter (fun b => decide (b ≠ abad))) st) ∧
    (∀ t ∈ rescheduleAllMedications meds alarms st,
      ∃ b ∈ alarms, b.isEnabled = true ∧
        ∃ d ∈ b.daysOfWeek, (1 ≤ d ∧ d ≤ 7) ∧ t.key = mkTriggerKey b.id d) ∧
    (∀ (m : Medication) (a : MedicationAlarm) (h mi : Nat),
      m ∈ meds → m.id ≠ "" → (∀ m' ∈ meds, m'.id = m.id → m' = m) →
      a ∈ alarms → a.medicationId = m.id → a.isEnabled = true →
      (∀ b ∈ alarms, b.id = a.id → b = a) →
      parseAlarmTime a.time = some (h, mi) →
      ∀ d ∈ a.daysOfWeek, (1 ≤ d ∧ d ≤ 7) →
        (rescheduleAllMedications meds alarms st).filter
          (fun t => t.key == mkTriggerKey a.id d) = [mkTrigger m a h mi d]) := by
  refine ⟨?_, ?_, ?_⟩
  · rw [rescheduleAllMedications, rescheduleAllMedications,
      rescheduleRegs_drop_invalid meds alarms abad hbad]
  · intro t ht
    rw [rescheduleAllMedications, cancelAllTriggers] at ht
    rcases mem_foldl_register _ [] t ht with h1 | h1
    · rw [mem_rescheduleRegs] at h1
      obtain ⟨m', _, _, a', ha', _, hen', hta'⟩ := h1
      rw [mem_alarmRegistrations] at hta'
      obtain ⟨h', mi', _, d', hd', hrange', rfl⟩ := hta'
      exact ⟨a', ha', hen', d', hd', hrange', rfl⟩
    · simp at h1
  · intro m a h mi hm hmid hmu ha hamid hen hau hparse d hdW hd
    exact final_filter_key_single meds alarms st m a h mi hm hmid hmu ha hamid
      hen hau hparse d hd hdW

/-- Witness for C4 (amended): a resync over a valid alarm and the
"25:00" alarm equals the resync without the latter. -/
theorem invalid_alarm_skipped_amended_witness :
    parseAlarmTime alarmBad.time = none ∧
    rescheduleAllMedications [medW] [alarmW, alarmBad] [] =
      rescheduleAllMedications [medW]
        ([alarmW, alarmBad].filter (fun b => decide (b ≠ alarmBad))) [] :=
  ⟨by decide,
   (invalid_alarm_skipped_amended [medW] [alarmW, alarmBad] [] alarmBad (by decide)).1⟩
